import Mathlib

/-!
Verification of the filesystem-access and directory-watch layer in
`src-tauri/src/lib.rs` (readmark).

The Rust functions are shallowly embedded over an explicit filesystem tree
(`FsNode`).  Paths are strings split on `/`; `.` components and empty
components are discarded and `..` pops, matching OS-level path resolution.
Rust's `sort_by` (a stable comparison sort) is embedded as
`List.insertionSort` (also stable) over the source's comparator.  The
directory-watch commands are embedded as state transformers over
`WatcherState`; the creation and destruction of underlying watcher handles
is made observable as a trace of `WatchAction`s emitted in the order the
Rust code drops/creates the handles.
-/

/-- Unicode-lowercase a string (`str::to_lowercase`). -/
def lowerStr (s : String) : String := ⟨s.data.map Char.toLower⟩

/-- `str::ends_with` on strings. -/
def strEndsWith (s suf : String) : Bool := suf.data.isSuffixOf s.data

/-- `str::starts_with('.')`: the hidden-entry test used by the source. -/
def startsWithDot (s : String) : Bool :=
  match s.data with
  | [] => false
  | c :: _ => c == '.'

/-- Split a character list at every occurrence of `sep`. -/
def splitChars (sep : Char) : List Char → List (List Char)
  | [] => [[]]
  | c :: rest =>
    let r := splitChars sep rest
    if c == sep then [] :: r
    else
      match r with
      | [] => [[c]]
      | h :: t => (c :: h) :: t

/-- Raw `/`-separated components of a path string, with empty and `.`
components discarded (as OS path parsing does). -/
def parsePath (p : String) : List String :=
  ((splitChars '/' p.data).map (fun l => String.mk l)).filter
    (fun s => s ≠ "" && s ≠ ".")

/-- Resolve `..` components the way the OS does on directory paths. -/
def normalizePath (comps : List String) : List String :=
  comps.foldl (fun acc c => if c = ".." then acc.dropLast else acc ++ [c]) []

/-- Components a path string denotes after OS resolution. -/
def resolvePath (p : String) : List String := normalizePath (parsePath p)

/-- `Path::join` as the source builds walked paths. -/
def joinPath (p n : String) : String :=
  if strEndsWith p "/" then p ++ n else p ++ "/" ++ n

/-- `Path::file_name`: the final normal component, `none` for the root or a
path ending in `..`. -/
def rustFileName (path : String) : Option String :=
  match (parsePath path).getLast? with
  | none => none
  | some l => if l = ".." then none else some l

/-- A filesystem subtree: a text file with contents, or a directory with a
named list of children. -/
inductive FsNode where
  | file (content : String)
  | dir (children : List (String × FsNode))

/-- Whether a node is a directory (`Path::is_dir` at that node). -/
def isDirNode : FsNode → Bool
  | .file _ => false
  | .dir _ => true

mutual
/-- Follow a component list down a tree. -/
def lookupNode : FsNode → List String → Option FsNode
  | node, [] => some node
  | .file _, _ :: _ => none
  | .dir cs, n :: rest => lookupChildren cs n rest

/-- Find the child named `n` and continue with `rest`. -/
def lookupChildren : List (String × FsNode) → String → List String → Option FsNode
  | [], _, _ => none
  | (m, c) :: cs, n, rest => if m = n then lookupNode c rest else lookupChildren cs n rest
end

/-- `Path::exists` over the model. -/
def pathExistsB (fs : FsNode) (path : String) : Bool :=
  (lookupNode fs (resolvePath path)).isSome

/-- `Path::is_dir` over the model. -/
def isDirB (fs : FsNode) (path : String) : Bool :=
  match lookupNode fs (resolvePath path) with
  | some n => isDirNode n
  | none => false

/-- Child lookup in a directory's entry list. -/
def findChild : List (String × FsNode) → String → Option FsNode
  | [], _ => none
  | (m, c) :: cs, n => if m = n then some c else findChild cs n

/-- Replace the binding for `n` (or append one). -/
def setChild : List (String × FsNode) → String → FsNode → List (String × FsNode)
  | [], n, v => [(n, v)]
  | (m, c) :: cs, n, v => if m = n then (n, v) :: cs else (m, c) :: setChild cs n v

/-- Effect of `fs::create_dir_all(parent)` followed by `fs::write(path)`:
create the missing intermediate directories, then store the file.  `none` is
an I/O error: writing at the root, through a file, or onto a directory. -/
def writeNode : List String → FsNode → String → Option FsNode
  | [], _, _ => none
  | [n], node, content =>
    match node with
    | .file _ => none
    | .dir cs =>
      match findChild cs n with
      | some (.dir _) => none
      | _ => some (.dir (setChild cs n (.file content)))
  | n :: rest₁ :: rest, node, content =>
    match node with
    | .file _ => none
    | .dir cs =>
      match findChild cs n with
      | some (.file _) => none
      | some (.dir ccs) =>
        (writeNode (rest₁ :: rest) (.dir ccs) content).map
          (fun c2 => FsNode.dir (setChild cs n c2))
      | none =>
        (writeNode (rest₁ :: rest) (.dir []) content).map
          (fun c2 => FsNode.dir (setChild cs n c2))

/-- `read_text_file` (lib.rs:38): `fs::read_to_string`. -/
def read_text_file (fs : FsNode) (path : String) : Except String String :=
  match lookupNode fs (resolvePath path) with
  | some (.file c) => Except.ok c
  | _ => Except.error ("Failed to read file: " ++ path)

/-- `write_text_file` (lib.rs:44): ensure the parent directory exists, then
write the content, replacing any existing content. -/
def write_text_file (fs : FsNode) (path content : String) : Except String FsNode :=
  match writeNode (resolvePath path) fs content with
  | some fs2 => Except.ok fs2
  | none => Except.error ("Failed to write file: " ++ path)

/-- `FileEntry` (lib.rs:11). -/
structure FileEntry where
  name : String
  path : String
  is_dir : Bool
  is_markdown : Bool
deriving DecidableEq

/-- `DirectoryContents` (lib.rs:19). -/
structure DirectoryContents where
  path : String
  entries : List FileEntry
deriving DecidableEq

/-- Lexicographic `≤` on character lists by code point, which on UTF-8
strings agrees with Rust's byte-wise `str::cmp`. -/
def listLexLe : List Char → List Char → Bool
  | [], _ => true
  | _ :: _, [] => false
  | a :: as, b :: bs =>
    if a.toNat < b.toNat then true
    else if b.toNat < a.toNat then false
    else listLexLe as bs

/-- `String` comparison as Rust's `Ord for String` (`cmp ≠ Greater`). -/
def strLeB (s t : String) : Bool := listLexLe s.data t.data

/-- The source's `sort_by` comparator for `list_dir` (lib.rs:91): directories
before files, then case-insensitive name; read as `compare ≠ Greater`. -/
def entryLEB (a b : FileEntry) : Bool :=
  match a.is_dir, b.is_dir with
  | true, false => true
  | false, true => false
  | _, _ => strLeB (lowerStr a.name) (lowerStr b.name)

/-- `entryLEB` as a relation, for sorting. -/
def entryLE (a b : FileEntry) : Prop := entryLEB a b = true

instance : DecidableRel entryLE := fun a b => by
  unfold entryLE; infer_instance

/-- The source's `sort_by` comparator for `list_md_files` (lib.rs:140):
case-insensitive full path, read as `compare ≠ Greater`. -/
def pathLE (a b : FileEntry) : Prop :=
  strLeB (lowerStr a.path) (lowerStr b.path) = true

instance : DecidableRel pathLE := fun a b => by
  unfold pathLE; infer_instance

/-- Build the `FileEntry` that `list_dir` pushes for a child (lib.rs:78). -/
def dirEntryOf (parent : String) (n : String) (node : FsNode) : FileEntry :=
  { name := n
    path := joinPath parent n
    is_dir := isDirNode node
    is_markdown := !isDirNode node && strEndsWith (lowerStr n) ".md" }

/-- `list_dir` (lib.rs:54): immediate children, hidden names skipped,
directories first then case-insensitive name. -/
def list_dir (fs : FsNode) (path : String) : Except String DirectoryContents :=
  if !pathExistsB fs path then
    Except.error ("Directory does not exist: " ++ path)
  else if !isDirB fs path then
    Except.error ("Path is not a directory: " ++ path)
  else
    match lookupNode fs (resolvePath path) with
    | some (.dir cs) =>
      let entries := cs.filterMap (fun e =>
        if startsWithDot e.1 then none else some (dirEntryOf path e.1 e.2))
      Except.ok { path := path, entries := entries.insertionSort entryLE }
    | _ => Except.error ("Failed to read directory: " ++ path)

/-- One entry yielded by the recursive walk (a `walkdir::DirEntry`). -/
structure WalkEntry where
  name : String
  path : String
  isFile : Bool
deriving DecidableEq

mutual
/-- Depth-first walk from a node, yielding the node itself and then its
subtree (`WalkDir` yields every entry; it does not prune). -/
def walkNode (name p : String) : FsNode → List WalkEntry
  | .file _ => [⟨name, p, true⟩]
  | .dir cs => ⟨name, p, false⟩ :: walkChildren p cs

/-- Walk each child of a directory in order. -/
def walkChildren (p : String) : List (String × FsNode) → List WalkEntry
  | [] => []
  | (n, c) :: rest => walkNode n (joinPath p n) c ++ walkChildren p rest
end

/-- The body of the `list_md_files` loop (lib.rs:121): skip an entry whose
own name is hidden, keep files whose lowercased name ends in `.md`. -/
def mdEntryOf (e : WalkEntry) : Option FileEntry :=
  if startsWithDot e.name then none
  else if e.isFile && strEndsWith (lowerStr e.name) ".md" then
    some { name := e.name, path := e.path, is_dir := false, is_markdown := true }
  else none

/-- `list_md_files` (lib.rs:107): walk the subtree rooted at `path`, filter
with `mdEntryOf`, sort by case-insensitive full path. -/
def list_md_files (fs : FsNode) (path : String) : Except String (List FileEntry) :=
  if !pathExistsB fs path then
    Except.error ("Directory does not exist: " ++ path)
  else
    match lookupNode fs (resolvePath path) with
    | none => Except.error ("Directory does not exist: " ++ path)
    | some node =>
      let rootName := (rustFileName path).getD path
      let entries := (walkNode rootName path node).filterMap mdEntryOf
      Except.ok (entries.insertionSort pathLE)

/-- `get_file_metadata` (lib.rs:153): error when the path does not exist,
otherwise a `FileEntry` built from `Path::file_name` (empty string when the
path has no final component) with the input path echoed verbatim. -/
def get_file_metadata (fs : FsNode) (path : String) : Except String FileEntry :=
  if !pathExistsB fs path then
    Except.error ("File does not exist: " ++ path)
  else
    let file_name := (rustFileName path).getD ""
    let is_dir := isDirB fs path
    let is_markdown := !is_dir && strEndsWith (lowerStr file_name) ".md"
    Except.ok { name := file_name, path := path, is_dir := is_dir, is_markdown := is_markdown }

/-- `WatcherState` (lib.rs:31): the single session slot.  The owned
debouncer handle is abstracted to a numeric handle id. -/
structure WatcherState where
  watcher : Option Nat
  watched_path : Option String
deriving DecidableEq

/-- A handle-lifecycle event, in the order the Rust code drops or creates
debouncer handles. -/
inductive WatchAction where
  | destroy (id : Nat)
  | create (id : Nat)
deriving DecidableEq

/-- `watch_directory` (lib.rs:178): clear the slot (dropping any previous
debouncer), then validate the path, then create and register a new debouncer
with handle id `newId` and install it.  `createFails` models `new_debouncer`
failing, `watchFails` models `watcher().watch` failing; in the latter case
the freshly created handle is dropped when the function returns.  Returns
the command result, the final state, and the handle-lifecycle trace. -/
def watch_directory (fs : FsNode) (path : String) (st : WatcherState)
    (newId : Nat) (createFails watchFails : Bool) :
    Except String Unit × WatcherState × List WatchAction :=
  let dropOld : List WatchAction :=
    match st.watcher with
    | some old => [.destroy old]
    | none => []
  let cleared : WatcherState := ⟨none, none⟩
  if !pathExistsB fs path || !isDirB fs path then
    (Except.error "Invalid directory path", cleared, dropOld)
  else if createFails then
    (Except.error "Failed to create watcher", cleared, dropOld)
  else if watchFails then
    (Except.error "Failed to watch directory", cleared,
      dropOld ++ [.create newId, .destroy newId])
  else
    (Except.ok (), ⟨some newId, some path⟩, dropOld ++ [.create newId])

/-- `unwatch_directory` (lib.rs:227): clear the slot, dropping any session. -/
def unwatch_directory (st : WatcherState) :
    Except String Unit × WatcherState × List WatchAction :=
  (Except.ok (), ⟨none, none⟩,
    match st.watcher with
    | some old => [.destroy old]
    | none => [])

/-- Apply one lifecycle event to the set of live handle ids. -/
def applyAct (live : List Nat) : WatchAction → List Nat
  | .create i => live ++ [i]
  | .destroy i => live.filter (fun j => j != i)

/-- Live handle ids after a trace, starting from `init`. -/
def liveAfter (init : List Nat) (acts : List WatchAction) : List Nat :=
  acts.foldl applyAct init

/-- The live handle ids a `WatcherState` accounts for. -/
def watcherIds (st : WatcherState) : List Nat := st.watcher.toList

theorem listLexLe_total : ∀ x y : List Char, listLexLe x y = true ∨ listLexLe y x = true
  | [], _ => Or.inl rfl
  | _ :: _, [] => Or.inr rfl
  | a :: as, b :: bs => by
    rcases Nat.lt_trichotomy a.toNat b.toNat with h | h | h
    · left; simp [listLexLe, h]
    · rcases listLexLe_total as bs with ih | ih
      · left; simp [listLexLe, h, ih]
      · right; simp [listLexLe, h, ih]
    · right; simp [listLexLe, h]

theorem listLexLe_trans : ∀ x y z : List Char,
    listLexLe x y = true → listLexLe y z = true → listLexLe x z = true
  | [], _, _, _, _ => rfl
  | _ :: _, [], _, hxy, _ => by simp [listLexLe] at hxy
  | _ :: _, _ :: _, [], _, hyz => by simp [listLexLe] at hyz
  | a :: as, b :: bs, c :: cs, hxy, hyz => by
    simp only [listLexLe] at hxy hyz ⊢
    rcases Nat.lt_trichotomy a.toNat b.toNat with hab | hab | hab
    · rcases Nat.lt_trichotomy b.toNat c.toNat with hbc | hbc | hbc
      · rw [if_pos (by omega)]
      · rw [if_pos (by omega)]
      · rw [if_neg (by omega), if_pos hbc] at hyz
        exact absurd hyz (by simp)
    · rcases Nat.lt_trichotomy b.toNat c.toNat with hbc | hbc | hbc
      · rw [if_pos (by omega)]
      · rw [if_neg (by omega), if_neg (by omega)] at hxy hyz ⊢
        exact listLexLe_trans as bs cs hxy hyz
      · rw [if_neg (by omega), if_pos hbc] at hyz
        exact absurd hyz (by simp)
    · rw [if_neg (by omega), if_pos hab] at hxy
      exact absurd hxy (by simp)

theorem strLeB_total (s t : String) : strLeB s t = true ∨ strLeB t s = true :=
  listLexLe_total s.data t.data

theorem strLeB_trans {s t u : String} (h1 : strLeB s t = true) (h2 : strLeB t u = true) :
    strLeB s u = true :=
  listLexLe_trans s.data t.data u.data h1 h2

instance : IsTotal FileEntry entryLE where
  total a b := by
    unfold entryLE entryLEB
    cases ha : a.is_dir <;> cases hb : b.is_dir <;> simp [ha, hb] <;>
      exact strLeB_total _ _

instance : IsTrans FileEntry entryLE where
  trans a b c hab hbc := by
    unfold entryLE entryLEB at hab hbc ⊢
    cases ha : a.is_dir <;> cases hb : b.is_dir <;> cases hc : c.is_dir <;>
      simp [ha, hb, hc] at hab hbc ⊢ <;>
      exact strLeB_trans hab hbc

instance : IsTotal FileEntry pathLE where
  total a b := by
    unfold pathLE
    rcases strLeB_total (lowerStr a.path) (lowerStr b.path) with h | h
    · exact Or.inl h
    · exact Or.inr h

instance : IsTrans FileEntry pathLE where
  trans _ _ _ hab hbc := strLeB_trans hab hbc

theorem lookupChildren_setChild (cs : List (String × FsNode)) (n : String) (v : FsNode)
    (rest : List String) :
    lookupChildren (setChild cs n v) n rest = lookupNode v rest := by
  induction cs with
  | nil => simp [setChild, lookupChildren]
  | cons hd tl ih =>
    obtain ⟨m, c⟩ := hd
    by_cases hm : m = n
    · subst hm
      simp [setChild, lookupChildren]
    · simp [setChild, lookupChildren, hm, ih]

theorem lookupNode_writeNode : ∀ (l : List String) (fs fs2 : FsNode) (c : String),
    writeNode l fs c = some fs2 → lookupNode fs2 l = some (.file c)
  | [], _, _, _, h => by simp [writeNode] at h
  | [n], fs, fs2, c, h => by
    cases fs with
    | file _ => simp [writeNode] at h
    | dir cs =>
      simp only [writeNode] at h
      split at h
      · exact absurd h (by simp)
      · obtain rfl : FsNode.dir (setChild cs n (.file c)) = fs2 := by
          injection h
        show lookupChildren (setChild cs n (.file c)) n [] = some (.file c)
        rw [lookupChildren_setChild]
        rfl
  | n :: r1 :: rest, fs, fs2, c, h => by
    cases fs with
    | file _ => simp [writeNode] at h
    | dir cs =>
      simp only [writeNode] at h
      split at h
      · exact absurd h (by simp)
      · rw [Option.map_eq_some'] at h
        obtain ⟨c2, hw, rfl⟩ := h
        show lookupChildren (setChild cs n c2) n (r1 :: rest) = some (.file c)
        rw [lookupChildren_setChild]
        exact lookupNode_writeNode (r1 :: rest) _ _ _ hw
      · rw [Option.map_eq_some'] at h
        obtain ⟨c2, hw, rfl⟩ := h
        show lookupChildren (setChild cs n c2) n (r1 :: rest) = some (.file c)
        rw [lookupChildren_setChild]
        exact lookupNode_writeNode (r1 :: rest) _ _ _ hw

/-- C8: for every path `P` and content `C`, if `write_text_file(P, C)`
succeeds then an immediately following `read_text_file(P)` succeeds and
returns exactly `C`. -/
theorem write_then_read (fs fs2 : FsNode) (p c : String)
    (h : write_text_file fs p c = Except.ok fs2) :
    read_text_file fs2 p = Except.ok c := by
  unfold write_text_file at h
  split at h
  · next fs3 heq =>
    obtain rfl : fs3 = fs2 := by injection h
    unfold read_text_file
    rw [lookupNode_writeNode _ _ _ _ heq]
  · exact absurd h (by simp)

theorem write_then_read_witness :
    write_text_file (FsNode.dir []) "/notes/a.md" "hello" =
      Except.ok (FsNode.dir [("notes", FsNode.dir [("a.md", FsNode.file "hello")])]) ∧
    read_text_file (FsNode.dir [("notes", FsNode.dir [("a.md", FsNode.file "hello")])])
      "/notes/a.md" = Except.ok "hello" :=
  ⟨rfl, write_then_read (FsNode.dir [])
    (FsNode.dir [("notes", FsNode.dir [("a.md", FsNode.file "hello")])])
    "/notes/a.md" "hello" rfl⟩

/-- The spec's scenario directory: `/notes` contains `.git` (dir),
`README.md` (file), `Notes` (dir). -/
def fsNotes : FsNode :=
  .dir [("notes", .dir
    [(".git", .dir [("config", .file "")]),
     ("README.md", .file "readme"),
     ("Notes", .dir [])])]

/-- What `list_dir fsNotes "/notes"` evaluates to. -/
def dcNotes : DirectoryContents :=
  { path := "/notes"
    entries :=
      [{ name := "Notes", path := "/notes/Notes", is_dir := true, is_markdown := false },
       { name := "README.md", path := "/notes/README.md", is_dir := false, is_markdown := true }] }

/-- C6: `list_dir` never returns an entry whose base name begins with `.`,
so a hidden child of `D` is never included. -/
theorem list_dir_excludes_hidden (fs : FsNode) (path : String) (dc : DirectoryContents)
    (h : list_dir fs path = Except.ok dc) :
    ∀ e ∈ dc.entries, startsWithDot e.name = false := by
  intro e he
  unfold list_dir at h
  split at h
  · exact absurd h (by simp)
  · split at h
    · exact absurd h (by simp)
    · split at h
      · next cs heq =>
        obtain rfl : ({ path := path
                        entries := (cs.filterMap (fun e =>
                          if startsWithDot e.1 then none
                          else some (dirEntryOf path e.1 e.2))).insertionSort entryLE } :
            DirectoryContents) = dc := by
          injection h
        simp only [List.mem_insertionSort, List.mem_filterMap] at he
        obtain ⟨a, _, hfa⟩ := he
        split at hfa
        · exact absurd hfa (by simp)
        · next hdot =>
          obtain rfl : dirEntryOf path a.1 a.2 = e := by injection hfa
          simpa using hdot
      · exact absurd h (by simp)

theorem list_dir_excludes_hidden_witness :
    list_dir fsNotes "/notes" = Except.ok dcNotes ∧
    startsWithDot (FileEntry.name
      { name := "Notes", path := "/notes/Notes", is_dir := true, is_markdown := false }) = false :=
  ⟨rfl, list_dir_excludes_hidden fsNotes "/notes" dcNotes rfl
    { name := "Notes", path := "/notes/Notes", is_dir := true, is_markdown := false }
    (by decide)⟩

/-- C10: every entry a successful `list_md_files` returns is a file entry
flagged as markdown. -/
theorem list_md_files_entries_markdown (fs : FsNode) (path : String)
    (entries : List FileEntry) (h : list_md_files fs path = Except.ok entries) :
    ∀ e ∈ entries, e.is_dir = false ∧ e.is_markdown = true := by
  intro e he
  unfold list_md_files at h
  split at h
  · exact absurd h (by simp)
  · split at h
    · exact absurd h (by simp)
    · next node heq =>
      obtain rfl :
          (((walkNode ((rustFileName path).getD path) path node).filterMap
            mdEntryOf).insertionSort pathLE) = entries := by
        injection h
      simp only [List.mem_insertionSort, List.mem_filterMap] at he
      obtain ⟨w, _, hfw⟩ := he
      unfold mdEntryOf at hfw
      split at hfw
      · exact absurd hfw (by simp)
      · split at hfw
        · obtain rfl :
              ({ name := w.name, path := w.path, is_dir := false, is_markdown := true } :
                FileEntry) = e := by
            injection hfw
          exact ⟨rfl, rfl⟩
        · exact absurd hfw (by simp)

/-- A markdown subtree used as a witness input: `/notes` contains `b.md`. -/
def fsMd : FsNode := .dir [("notes", .dir [("b.md", .file "b")])]

theorem list_md_files_entries_markdown_witness :
    list_md_files fsMd "/notes" = Except.ok
      [{ name := "b.md", path := "/notes/b.md", is_dir := false, is_markdown := true }] ∧
    (FileEntry.is_dir
        { name := "b.md", path := "/notes/b.md", is_dir := false, is_markdown := true } = false ∧
      FileEntry.is_markdown
        { name := "b.md", path := "/notes/b.md", is_dir := false, is_markdown := true } = true) :=
  ⟨rfl, list_md_files_entries_markdown fsMd "/notes"
    [{ name := "b.md", path := "/notes/b.md", is_dir := false, is_markdown := true }] rfl
    { name := "b.md", path := "/notes/b.md", is_dir := false, is_markdown := true }
    (by decide)⟩

/-- C7: in a successful `list_dir` listing, directory entries precede file
entries, and within equal `is_dir` groups names ascend case-insensitively. -/
theorem list_dir_ordered (fs : FsNode) (path : String) (dc : DirectoryContents)
    (h : list_dir fs path = Except.ok dc) (i j : Nat)
    (hi : i < dc.entries.length) (hj : j < dc.entries.length) (hij : i < j) :
    ((dc.entries.get ⟨j, hj⟩).is_dir = true → (dc.entries.get ⟨i, hi⟩).is_dir = true) ∧
    ((dc.entries.get ⟨i, hi⟩).is_dir = (dc.entries.get ⟨j, hj⟩).is_dir →
      strLeB (lowerStr (dc.entries.get ⟨i, hi⟩).name)
        (lowerStr (dc.entries.get ⟨j, hj⟩).name) = true) := by
  have key : ∀ a b : FileEntry, entryLE a b →
      ((b.is_dir = true → a.is_dir = true) ∧
        (a.is_dir = b.is_dir → strLeB (lowerStr a.name) (lowerStr b.name) = true)) := by
    intro a b hab
    unfold entryLE entryLEB at hab
    cases ha : a.is_dir <;> cases hb : b.is_dir <;>
      simp [ha, hb] at hab ⊢ <;> try exact hab
  have hsorted : List.Sorted entryLE dc.entries := by
    unfold list_dir at h
    split at h
    · exact absurd h (by simp)
    · split at h
      · exact absurd h (by simp)
      · split at h
        · next cs heq =>
          obtain rfl : ({ path := path
                          entries := (cs.filterMap (fun e =>
                            if startsWithDot e.1 then none
                            else some (dirEntryOf path e.1 e.2))).insertionSort entryLE } :
              DirectoryContents) = dc := by
            injection h
          exact List.sorted_insertionSort entryLE _
        · exact absurd h (by simp)
  exact key _ _ (hsorted.rel_get_of_lt (a := ⟨i, hi⟩) (b := ⟨j, hj⟩) hij)

theorem list_dir_ordered_witness :
    list_dir fsNotes "/notes" = Except.ok dcNotes ∧
    (((dcNotes.entries.get ⟨1, by decide⟩).is_dir = true →
        (dcNotes.entries.get ⟨0, by decide⟩).is_dir = true) ∧
      ((dcNotes.entries.get ⟨0, by decide⟩).is_dir = (dcNotes.entries.get ⟨1, by decide⟩).is_dir →
        strLeB (lowerStr (dcNotes.entries.get ⟨0, by decide⟩).name)
          (lowerStr (dcNotes.entries.get ⟨1, by decide⟩).name) = true)) :=
  ⟨rfl, list_dir_ordered fsNotes "/notes" dcNotes rfl 0 1 (by decide) (by decide) (by decide)⟩

/-- C9: when the path exists but has no final name component (the root, or a
path ending in `..`), `get_file_metadata` succeeds with an empty name and
the input path echoed verbatim. -/
theorem get_file_metadata_no_name_component (fs : FsNode) (path : String)
    (hex : pathExistsB fs path = true) (hname : rustFileName path = none) :
    get_file_metadata fs path =
      Except.ok { name := "", path := path, is_dir := isDirB fs path, is_markdown := false } := by
  unfold get_file_metadata
  rw [hex, hname]
  simp [strEndsWith, lowerStr, List.isSuffixOf]

theorem get_file_metadata_no_name_component_witness :
    pathExistsB (FsNode.dir []) "/" = true ∧ rustFileName "/" = none ∧
    get_file_metadata (FsNode.dir []) "/" =
      Except.ok { name := "", path := "/", is_dir := isDirB (FsNode.dir []) "/",
                  is_markdown := false } :=
  ⟨rfl, rfl, get_file_metadata_no_name_component (FsNode.dir []) "/" rfl rfl⟩

/-- A root containing a hidden directory with a markdown file inside. -/
def fsHidden : FsNode :=
  .dir [("notes", .dir
    [(".hidden", .dir [("secret.md", .file "s")]),
     ("b.md", .file "b")])]

/-- C2 (refuting evaluation): `list_md_files` walks into the hidden
directory `.hidden` and returns `/notes/.hidden/secret.md`; the hidden-name
test at lib.rs:125 skips only the entry itself and does not prune the
subtree. -/
theorem list_md_files_hidden_dir_included :
    list_md_files fsHidden "/notes" = Except.ok
      [{ name := "secret.md", path := "/notes/.hidden/secret.md",
         is_dir := false, is_markdown := true },
       { name := "b.md", path := "/notes/b.md", is_dir := false, is_markdown := true }] ∧
    ".hidden" ∈ parsePath "/notes/.hidden/secret.md" ∧
    startsWithDot ".hidden" = true :=
  ⟨rfl, by decide, rfl⟩

/-- C1 (counterexample): with a session active, `watch_directory` on a
missing path fails with the invalid-path error, yet the previously active
session is gone — the slot was cleared before validation (lib.rs:182). -/
theorem watch_directory_invalid_path_cex :
    (watch_directory (FsNode.dir []) "/missing" ⟨some 1, some "/old"⟩ 2 false false).1 =
      Except.error "Invalid directory path" ∧
    (watch_directory (FsNode.dir []) "/missing" ⟨some 1, some "/old"⟩ 2 false false).2.1 =
      ⟨none, none⟩ ∧
    (⟨none, none⟩ : WatcherState) ≠ ⟨some 1, some "/old"⟩ :=
  ⟨rfl, rfl, by decide⟩

/-- C1 (amended): on an invalid path `watch_directory` fails with the
invalid-path error, and any previously active session has already been torn
down: the manager is left idle, not in its prior state. -/
theorem watch_directory_invalid_path_idle (fs : FsNode) (path : String) (st : WatcherState)
    (newId : Nat) (cf wf : Bool)
    (h : (!pathExistsB fs path || !isDirB fs path) = true) :
    (watch_directory fs path st newId cf wf).1 = Except.error "Invalid directory path" ∧
    (watch_directory fs path st newId cf wf).2.1 = ⟨none, none⟩ := by
  unfold watch_directory
  simp [h]

theorem watch_directory_invalid_path_idle_witness :
    (!pathExistsB (FsNode.dir []) "/missing" || !isDirB (FsNode.dir []) "/missing") = true ∧
    ((watch_directory (FsNode.dir []) "/missing" ⟨some 7, some "/old"⟩ 9 false false).1 =
        Except.error "Invalid directory path" ∧
      (watch_directory (FsNode.dir []) "/missing" ⟨some 7, some "/old"⟩ 9 false false).2.1 =
        ⟨none, none⟩) :=
  ⟨rfl, watch_directory_invalid_path_idle (FsNode.dir []) "/missing"
    ⟨some 7, some "/old"⟩ 9 false false rfl⟩

/-- C5: if the path validates but creating or registering the watcher
fails, `watch_directory` returns a watcher error and the manager is left
idle — no half-initialized session in the slot. -/
theorem watch_directory_watcher_failure_idle (fs : FsNode) (path : String)
    (st : WatcherState) (newId : Nat) (cf wf : Bool)
    (hvalid : (!pathExistsB fs path || !isDirB fs path) = false)
    (hfail : (cf || wf) = true) :
    ((watch_directory fs path st newId cf wf).1 = Except.error "Failed to create watcher" ∨
      (watch_directory fs path st newId cf wf).1 = Except.error "Failed to watch directory") ∧
    (watch_directory fs path st newId cf wf).2.1 = ⟨none, none⟩ := by
  unfold watch_directory
  cases cf with
  | true => simp [hvalid]
  | false =>
    have hwf : wf = true := by simpa using hfail
    subst hwf
    simp [hvalid]

theorem watch_directory_watcher_failure_idle_witness :
    (!pathExistsB fsNotes "/notes" || !isDirB fsNotes "/notes") = false ∧
    (true || false) = true ∧
    (((watch_directory fsNotes "/notes" ⟨none, none⟩ 3 true false).1 =
          Except.error "Failed to create watcher" ∨
        (watch_directory fsNotes "/notes" ⟨none, none⟩ 3 true false).1 =
          Except.error "Failed to watch directory") ∧
      (watch_directory fsNotes "/notes" ⟨none, none⟩ 3 true false).2.1 = ⟨none, none⟩) :=
  ⟨rfl, rfl, watch_directory_watcher_failure_idle fsNotes "/notes" ⟨none, none⟩ 3 true false
    rfl rfl⟩

/-- C3: along the handle-lifecycle trace of any `watch_directory` call, at
most one watcher handle is ever live — the old session's handle is dropped
first (the trace begins with its destruction whenever a session was
active), and only then is a new handle created. -/
theorem watch_directory_single_live_session (fs : FsNode) (path : String) (st : WatcherState)
    (newId : Nat) (cf wf : Bool) :
    (∀ n : Nat, (liveAfter (watcherIds st)
        (((watch_directory fs path st newId cf wf).2.2).take n)).length ≤ 1) ∧
    (∀ old : Nat, st.watcher = some old →
      ((watch_directory fs path st newId cf wf).2.2).head? = some (.destroy old)) := by
  obtain ⟨w, wp⟩ := st
  constructor
  · intro n
    cases hv : (!pathExistsB fs path || !isDirB fs path) <;> cases cf <;> cases wf <;>
      cases w <;> rcases n with _ | _ | _ | n <;>
        simp [watch_directory, watcherIds, liveAfter, applyAct, hv, List.take]
  · intro old hold
    obtain rfl : w = some old := by simpa using hold
    cases hv : (!pathExistsB fs path || !isDirB fs path) <;> cases cf <;> cases wf <;>
      simp [watch_directory, hv]

theorem watch_directory_single_live_session_witness :
    (liveAfter (watcherIds ⟨some 1, some "/old"⟩)
        (((watch_directory fsNotes "/notes" ⟨some 1, some "/old"⟩ 2 false false).2.2).take 2)).length ≤ 1 ∧
    ((watch_directory fsNotes "/notes" ⟨some 1, some "/old"⟩ 2 false false).2.2).head? =
      some (.destroy 1) :=
  ⟨(watch_directory_single_live_session fsNotes "/notes" ⟨some 1, some "/old"⟩ 2 false false).1 2,
    (watch_directory_single_live_session fsNotes "/notes" ⟨some 1, some "/old"⟩ 2 false false).2
      1 rfl⟩
